import Mathlib

/-!
Shallow embedding of the temporal projection engine of src/app.py
(personal finance planner). Dates are triples of integers compared
lexicographically, exactly as Python date objects compare; Python
floor division and modulus by the positive literal 12 coincide with
Lean Int division and modulus, which are Euclidean. Monetary amounts
(Python floats holding currency values) are modelled as rationals so
that the summation structure of the code is preserved exactly.
Records are modelled as structures holding the fields the engine
reads; the try/except ISO-date parse in compute_monthly_income is
modelled by an Option-valued start date, where none stands for a
stored string that datetime.fromisoformat rejects.
-/

/-- Calendar date, as in Python datetime.date: compared lexicographically
by (year, month, day). Validity (month in 1..12, day in range) is not
built in; theorems add bounds where they matter. -/
structure Date where
  year : Int
  month : Int
  day : Int
deriving DecidableEq

/-- Embeds calendar.isleap: divisible by 4 and (not by 100 or by 400). -/
def isLeap (y : Int) : Bool :=
  y % 4 = 0 && (y % 100 ≠ 0 || y % 400 = 0)

/-- Embeds calendar.monthrange(y, m)[1]: the number of days of month m
of year y (for m in 1..12). -/
def daysInMonth (y m : Int) : Int :=
  if m = 2 then (if isLeap y then 29 else 28)
  else if m = 4 ∨ m = 6 ∨ m = 9 ∨ m = 11 then 30
  else 31

/-- Embeds add_months (src/app.py lines 512-519): month-index arithmetic
with Python floor division by 12 (equal to Euclidean division here),
clamping the day to the last day of the target month. -/
def add_months (base : Date) (months : Int) : Date :=
  let new_month_index := (base.month - 1) + months
  let new_year := base.year + new_month_index / 12
  let new_month := new_month_index % 12 + 1
  let last_day := daysInMonth new_year new_month
  ⟨new_year, new_month, min base.day last_day⟩

/-- Lexicographic less-or-equal on dates, as Python date comparison. -/
def dateLe (a b : Date) : Bool :=
  decide (a.year < b.year ∨ (a.year = b.year ∧
    (a.month < b.month ∨ (a.month = b.month ∧ a.day ≤ b.day))))

/-- Lexicographic strict order on dates, as Python date comparison. -/
def dateLt (a b : Date) : Bool :=
  decide (a.year < b.year ∨ (a.year = b.year ∧
    (a.month < b.month ∨ (a.month = b.month ∧ a.day < b.day))))

/-- Successor day of a calendar date, rolling over months and years. -/
def nextDay (d : Date) : Date :=
  if d.day < daysInMonth d.year d.month then ⟨d.year, d.month, d.day + 1⟩
  else if d.month < 12 then ⟨d.year, d.month + 1, 1⟩
  else ⟨d.year + 1, 1, 1⟩

/-- Embeds today + timedelta(days = n) for n not negative. -/
def addDays (d : Date) : Nat → Date
  | 0 => d
  | n + 1 => nextDay (addDays d n)

/-- Embeds occurs_in_month (src/app.py lines 521-537): the recurrence
evaluator deciding whether an income with the given start date, policy
string and optional occurrence count occurs in (target_year,
target_month). -/
def occurs_in_month (start : Date) (recurrence : String)
    (months_count : Option Int) (target_year target_month : Int) : Bool :=
  let months_diff := (target_year - start.year) * 12 + (target_month - start.month)
  if months_diff < 0 then false
  else if recurrence = "once" then decide (months_diff = 0)
  else if recurrence = "monthly" then
    match months_count with
    | none => decide (0 ≤ months_diff)
    | some n => decide (0 ≤ months_diff ∧ months_diff < n)
  else if recurrence = "x_months" then
    match months_count with
    | none => false
    | some n => decide (0 ≤ months_diff ∧ months_diff < n)
  else false

/-- Income record as compute_monthly_income reads it. start_date none
models a stored string rejected by datetime.fromisoformat (the
try/except skip); some d models a string parsing to d. -/
structure Income where
  amount : Rat
  start_date : Option Date
  recurrence : String
  months_count : Option Int

/-- Expense record as the engine reads it. -/
structure Expense where
  description : String
  category : String
  amount : Rat
  due_date : Date
  is_paid : Bool

/-- Credit-card invoice record as the engine reads it. -/
structure Invoice where
  bank_name : String
  card_name : Option String
  invoice_month : String
  amount_due : Rat
  due_date : Date
  is_paid : Bool

/-- Savings adjustment record as compute_accumulated_balances reads it. -/
structure SavingsAdjustment where
  amount : Rat
  movement_date : Date
  movement_type : String

/-- Left-pads a digit string with zeros to the given width. -/
def padLeftZeros (w : Nat) (s : String) : String :=
  if s.length < w then String.mk (List.replicate (w - s.length) '0') ++ s else s

/-- Embeds the Python zero-padded integer format {n:0wd}, sign included
in the width. -/
def intPad (w : Nat) (n : Int) : String :=
  if n < 0 then "-" ++ padLeftZeros (w - 1) (toString (-n).toNat)
  else padLeftZeros w (toString n.toNat)

/-- Embeds the f-string of src/app.py line 563: the canonical
zero-padded YYYY-MM key for a (year, month). -/
def monthKeyStr (year month : Int) : String :=
  intPad 4 year ++ "-" ++ intPad 2 month

/-- Contribution of one income row to a monthly total: zero when its
start date does not parse or the recurrence evaluator rejects the
month, its amount otherwise. -/
def incomeContribution (r : Income) (year month : Int) : Rat :=
  match r.start_date with
  | none => 0
  | some sd =>
    if occurs_in_month sd r.recurrence r.months_count year month then r.amount else 0

/-- Embeds compute_monthly_income (src/app.py lines 539-550): iterates
the income rows, skips a row whose start date fails to parse, adds the
amount of every row whose recurrence evaluator accepts the month. -/
def compute_monthly_income (incomes : List Income) (year month : Int) : Rat :=
  incomes.foldl (fun total row =>
    match row.start_date with
    | none => total
    | some sd =>
      if occurs_in_month sd row.recurrence row.months_count year month then
        total + row.amount
      else total) 0

/-- Embeds compute_monthly_expenses (src/app.py lines 552-565): the sum
of expense amounts due in the exact (year, month) plus the sum of
invoice amounts whose stored invoice_month string equals the canonical
zero-padded key. -/
def compute_monthly_expenses (expenses : List Expense) (invoices : List Invoice)
    (year month : Int) : Rat :=
  ((expenses.filter (fun e =>
      decide (e.due_date.year = year ∧ e.due_date.month = month))).map
    (fun e => e.amount)).sum
  + ((invoices.filter (fun i =>
      decide (i.invoice_month = monthKeyStr year month))).map
    (fun i => i.amount_due)).sum

/-- Alert row produced by get_due_alerts. -/
structure Alert where
  tipo : String
  descricao : String
  categoria : String
  valor : Rat
  vencimento : Date
deriving DecidableEq

/-- Ordering of alert rows by due date, the sort key of get_due_alerts. -/
def alertLe (a b : Alert) : Prop := dateLe a.vencimento b.vencimento = true

instance : DecidableRel alertLe :=
  fun a b => inferInstanceAs (Decidable (dateLe a.vencimento b.vencimento = true))

instance : IsTotal Alert alertLe :=
  ⟨by intro a b; simp only [alertLe, dateLe, decide_eq_true_eq]; omega⟩

instance : IsTrans Alert alertLe :=
  ⟨by intro a b c; simp only [alertLe, dateLe, decide_eq_true_eq]; omega⟩

/-- Alert row built from an expense (src/app.py lines 604-610). -/
def mkExpenseAlert (e : Expense) : Alert :=
  ⟨"Despesa", e.description, e.category, e.amount, e.due_date⟩

/-- Embeds the invoice alert description f-string of src/app.py line
620, with the Python or-default for a falsy card name. -/
def invoiceDesc (i : Invoice) : String :=
  i.bank_name ++ " - "
    ++ (match i.card_name with
        | some s => if s = "" then "Cartão" else s
        | none => "Cartão")
    ++ " (" ++ i.invoice_month ++ ")"

/-- Alert row built from an invoice (src/app.py lines 617-623). -/
def mkInvoiceAlert (i : Invoice) : Alert :=
  ⟨"Cartão de Crédito", invoiceDesc i, "Fatura", i.amount_due, i.due_date⟩

/-- Window test today <= d <= limit of get_due_alerts. -/
def inWindow (today limit d : Date) : Bool :=
  dateLe today d && dateLe d limit

/-- Expense rows of the alert list: unpaid and due inside the window. -/
def dueExpenseAlerts (today limit : Date) (expenses : List Expense) : List Alert :=
  ((expenses.filter (fun e => e.is_paid = false)).filter
    (fun e => inWindow today limit e.due_date)).map mkExpenseAlert

/-- Invoice rows of the alert list: unpaid and due inside the window. -/
def dueInvoiceAlerts (today limit : Date) (invoices : List Invoice) : List Alert :=
  ((invoices.filter (fun i => i.is_paid = false)).filter
    (fun i => inWindow today limit i.due_date)).map mkInvoiceAlert

/-- Embeds get_due_alerts (src/app.py lines 588-628): limit is today
plus days_ahead days; unpaid expenses, then unpaid invoices, due
between today and limit inclusive are collected and the merged list is
sorted ascending by due date (pandas sort_values; tie order among equal
due dates is unspecified there, a sort is modelled by a stable sort). -/
def get_due_alerts (today : Date) (days_ahead : Nat)
    (expenses : List Expense) (invoices : List Invoice) : List Alert :=
  let limit := addDays today days_ahead
  List.insertionSort alertLe
    (dueExpenseAlerts today limit expenses ++ dueInvoiceAlerts today limit invoices)

/-- Monthly net of src/app.py line 660: income minus expenses. -/
def monthly_net (incomes : List Income) (expenses : List Expense)
    (invoices : List Invoice) (year month : Int) : Rat :=
  compute_monthly_income incomes year month
    - compute_monthly_expenses expenses invoices year month

/-- Embeds the month grid loop of compute_accumulated_balances
(src/app.py lines 645-649): (year, month) pairs from months_past
months back through months_future months forward around today. -/
def monthsGrid (today : Date) (months_past months_future : Nat) : List (Int × Int) :=
  (List.range (months_past + months_future + 1)).map (fun j =>
    let i : Int := (j : Int) - (months_past : Int)
    (today.year + (today.month - 1 + i) / 12, (today.month - 1 + i) % 12 + 1))

/-- Embeds is_past_month of compute_accumulated_balances (src/app.py
lines 662-667). -/
def isPastMonth (today : Date) (y m : Int) : Bool :=
  decide (y < today.year ∨ (y = today.year ∧ m < today.month))

/-- Embeds is_future_month of compute_accumulated_balances (src/app.py
lines 669-674). -/
def isFutureMonth (today : Date) (y m : Int) : Bool :=
  decide (today.year < y ∨ (y = today.year ∧ today.month ≤ m))

/-- Embeds the sign column of src/app.py line 681: 1 for the
contribution kind aporte, -1 for anything else. -/
def adjSign (a : SavingsAdjustment) : Rat :=
  if a.movement_type = "aporte" then 1 else -1

/-- Embeds the eff column of src/app.py line 682: amount times sign. -/
def adjEff (a : SavingsAdjustment) : Rat := a.amount * adjSign a

/-- Embeds past_adj of src/app.py line 684: signed total of the
adjustments dated on or before today. -/
def pastAdjTotal (today : Date) (adjustments : List SavingsAdjustment) : Rat :=
  ((adjustments.filter (fun a => dateLe a.movement_date today)).map adjEff).sum

/-- Embeds future_adj of src/app.py line 685: signed total of the
adjustments dated strictly after today. -/
def futureAdjTotal (today : Date) (adjustments : List SavingsAdjustment) : Rat :=
  ((adjustments.filter (fun a => dateLt today a.movement_date)).map adjEff).sum

/-- Embeds compute_accumulated_balances (src/app.py lines 630-692),
parameterized by today and the record snapshots the storage layer
returns. First component saldo_atual, second saldo_futuro. -/
def compute_accumulated_balances (today : Date) (months_past months_future : Nat)
    (incomes : List Income) (expenses : List Expense) (invoices : List Invoice)
    (adjustments : List SavingsAdjustment) : Rat × Rat :=
  let months := monthsGrid today months_past months_future
  let nets := months.map (fun p => (p.1, p.2, monthly_net incomes expenses invoices p.1 p.2))
  let past_nets := (nets.filter (fun r => isPastMonth today r.1 r.2.1)).map (fun r => r.2.2)
  let future_nets := (nets.filter (fun r => isFutureMonth today r.1 r.2.1)).map (fun r => r.2.2)
  let past_adj := pastAdjTotal today adjustments
  let future_adj := futureAdjTotal today adjustments
  let saldo_atual := past_nets.sum + past_adj
  let saldo_futuro := saldo_atual + future_nets.sum + future_adj
  (saldo_atual, saldo_futuro)

/-! Helper lemmas shared by the claim theorems. -/

lemma dateLe_iff (a b : Date) :
    dateLe a b = true ↔
      (a.year < b.year ∨ (a.year = b.year ∧
        (a.month < b.month ∨ (a.month = b.month ∧ a.day ≤ b.day)))) := by
  simp [dateLe]

lemma dateLt_iff (a b : Date) :
    dateLt a b = true ↔
      (a.year < b.year ∨ (a.year = b.year ∧
        (a.month < b.month ∨ (a.month = b.month ∧ a.day < b.day)))) := by
  simp [dateLt]

lemma dateLt_eq_not_dateLe (a b : Date) : dateLt a b = !dateLe b a := by
  simp only [dateLt, dateLe, ← decide_not, decide_eq_decide]
  omega

lemma occurs_in_month_once_eq (start : Date) (mc : Option Int) (ty tm : Int) :
    occurs_in_month start "once" mc ty tm
      = decide ((ty - start.year) * 12 + (tm - start.month) = 0) := by
  simp only [occurs_in_month]
  by_cases hd : (ty - start.year) * 12 + (tm - start.month) < 0
  · rw [if_pos hd]
    have hne : ¬((ty - start.year) * 12 + (tm - start.month) = 0) := by omega
    simp [hne]
  · rw [if_neg hd]; simp

lemma occurs_in_month_monthly_none_eq (start : Date) (ty tm : Int) :
    occurs_in_month start "monthly" none ty tm
      = decide (0 ≤ (ty - start.year) * 12 + (tm - start.month)) := by
  simp only [occurs_in_month]
  by_cases hd : (ty - start.year) * 12 + (tm - start.month) < 0
  · rw [if_pos hd]
    have hne : ¬(0 ≤ (ty - start.year) * 12 + (tm - start.month)) := by omega
    simp [hne]
  · rw [if_neg hd]; simp

lemma occurs_in_month_monthly_some_eq (start : Date) (n : Int) (ty tm : Int) :
    occurs_in_month start "monthly" (some n) ty tm
      = decide (0 ≤ (ty - start.year) * 12 + (tm - start.month)
          ∧ (ty - start.year) * 12 + (tm - start.month) < n) := by
  simp only [occurs_in_month]
  by_cases hd : (ty - start.year) * 12 + (tm - start.month) < 0
  · rw [if_pos hd]
    have hne : ¬(0 ≤ (ty - start.year) * 12 + (tm - start.month)
        ∧ (ty - start.year) * 12 + (tm - start.month) < n) := by omega
    simp [hne]
  · rw [if_neg hd]; simp

lemma occurs_in_month_x_months_some_eq (start : Date) (n : Int) (ty tm : Int) :
    occurs_in_month start "x_months" (some n) ty tm
      = decide (0 ≤ (ty - start.year) * 12 + (tm - start.month)
          ∧ (ty - start.year) * 12 + (tm - start.month) < n) := by
  simp only [occurs_in_month]
  by_cases hd : (ty - start.year) * 12 + (tm - start.month) < 0
  · rw [if_pos hd]
    have hne : ¬(0 ≤ (ty - start.year) * 12 + (tm - start.month)
        ∧ (ty - start.year) * 12 + (tm - start.month) < n) := by omega
    simp [hne]
  · rw [if_neg hd]; simp

lemma occurs_in_month_unrecognized_eq (start : Date) (rec : String) (mc : Option Int)
    (ty tm : Int) (h1 : rec ≠ "once") (h2 : rec ≠ "monthly") (h3 : rec ≠ "x_months") :
    occurs_in_month start rec mc ty tm = false := by
  simp only [occurs_in_month]
  by_cases hd : (ty - start.year) * 12 + (tm - start.month) < 0
  · rw [if_pos hd]
  · rw [if_neg hd, if_neg h1, if_neg h2, if_neg h3]

lemma foldl_add_sum {α : Type} (g : α → Rat) (l : List α) : ∀ a : Rat,
    List.foldl (fun t x => t + g x) a l = a + (l.map g).sum := by
  induction l with
  | nil => intro a; simp
  | cons x t ih => intro a; simp [ih, add_assoc]

lemma compute_monthly_income_eq_sum (incomes : List Income) (y m : Int) :
    compute_monthly_income incomes y m
      = (incomes.map (fun r => incomeContribution r y m)).sum := by
  have hbody : (fun (total : Rat) (row : Income) =>
      match row.start_date with
      | none => total
      | some sd =>
        if occurs_in_month sd row.recurrence row.months_count y m then
          total + row.amount
        else total)
      = fun (total : Rat) (row : Income) => total + incomeContribution row y m := by
    funext total row
    cases h : row.start_date with
    | none => simp [incomeContribution, h]
    | some sd =>
      by_cases ho : occurs_in_month sd row.recurrence row.months_count y m <;>
        simp [incomeContribution, h, ho]
  unfold compute_monthly_income
  rw [hbody, foldl_add_sum]
  simp

/-- C2: with policy monthly and no occurrence limit, occurs_in_month accepts
exactly the targets whose month difference from the start is not negative;
with policy monthly and limit n, or policy x_months with limit n, it accepts
exactly the targets whose month difference lies between 0 inclusive and n
exclusive, that is the n consecutive months starting at the start month. -/
theorem occurs_in_month_recurring_spec (start : Date) (n : Int) (ty tm : Int) :
    (occurs_in_month start "monthly" none ty tm = true
        ↔ 0 ≤ (ty - start.year) * 12 + (tm - start.month))
    ∧ (occurs_in_month start "monthly" (some n) ty tm = true
        ↔ 0 ≤ (ty - start.year) * 12 + (tm - start.month)
            ∧ (ty - start.year) * 12 + (tm - start.month) < n)
    ∧ (occurs_in_month start "x_months" (some n) ty tm = true
        ↔ 0 ≤ (ty - start.year) * 12 + (tm - start.month)
            ∧ (ty - start.year) * 12 + (tm - start.month) < n) := by
  refine ⟨?_, ?_, ?_⟩
  · rw [occurs_in_month_monthly_none_eq]; simp
  · rw [occurs_in_month_monthly_some_eq]; simp
  · rw [occurs_in_month_x_months_some_eq]; simp

/-- C3: for every policy and limit, occurs_in_month rejects a target month
that precedes the start month; a once record occurs exactly when the month
difference is zero, hence, for calendar months between 1 and 12, in exactly
the one (year, month) equal to its start month. -/
theorem occurs_in_month_no_backdating_once (start : Date) (rec : String)
    (mc : Option Int) (ty tm : Int) :
    (ty * 12 + tm < start.year * 12 + start.month →
        occurs_in_month start rec mc ty tm = false)
    ∧ (occurs_in_month start "once" mc ty tm = true
        ↔ (ty - start.year) * 12 + (tm - start.month) = 0)
    ∧ (1 ≤ start.month → start.month ≤ 12 → 1 ≤ tm → tm ≤ 12 →
        (occurs_in_month start "once" mc ty tm = true
          ↔ ty = start.year ∧ tm = start.month)) := by
  refine ⟨?_, ?_, ?_⟩
  · intro h
    have hd : (ty - start.year) * 12 + (tm - start.month) < 0 := by omega
    simp only [occurs_in_month]
    rw [if_pos hd]
  · rw [occurs_in_month_once_eq]; simp
  · intro h1 h2 h3 h4
    rw [occurs_in_month_once_eq]
    simp only [decide_eq_true_eq]
    omega

/-- Witness for C3 at concrete inputs: a monthly record is rejected one
month before its start, and a once record occurs exactly at its start
month. -/
theorem occurs_in_month_no_backdating_once_witness :
    occurs_in_month ⟨2024, 3, 10⟩ "monthly" none 2024 2 = false
    ∧ (occurs_in_month ⟨2024, 3, 10⟩ "once" none 2024 3 = true
        ↔ (2024 : Int) = 2024 ∧ (3 : Int) = 3) :=
  ⟨(occurs_in_month_no_backdating_once ⟨2024, 3, 10⟩ "monthly" none 2024 2).1
      (by decide),
   (occurs_in_month_no_backdating_once ⟨2024, 3, 10⟩ "once" none 2024 3).2.2
      (by decide) (by decide) (by decide) (by decide)⟩

/-- C7: add_months lands in the month exactly n months after the base
month (as month indices), produces a month between 1 and 12, clamps the
day to the last valid day of the target month, and on the two worked
examples clamps January 31 to February 29 of 2024 and February 28 of
2023. -/
theorem add_months_spec (d : Date) (n : Int) :
    (add_months d n).year * 12 + ((add_months d n).month - 1)
        = d.year * 12 + (d.month - 1) + n
    ∧ 1 ≤ (add_months d n).month ∧ (add_months d n).month ≤ 12
    ∧ (add_months d n).day
        = min d.day (daysInMonth (add_months d n).year (add_months d n).month)
    ∧ add_months ⟨2024, 1, 31⟩ 1 = ⟨2024, 2, 29⟩
    ∧ add_months ⟨2023, 1, 31⟩ 1 = ⟨2023, 2, 28⟩ := by
  refine ⟨?_, ?_, ?_, rfl, by decide, by decide⟩
  · simp only [add_months]
    omega
  · simp only [add_months]
    omega
  · simp only [add_months]
    omega

/-- C8: a recurrence string other than once, monthly and x_months makes
occurs_in_month false at every start date, limit and target, and a record
carrying such a policy leaves every monthly income total unchanged. -/
theorem occurs_in_month_fail_closed (start : Date) (rec : String) (mc : Option Int)
    (ty tm : Int) (l1 l2 : List Income) (r : Income) :
    rec ≠ "once" → rec ≠ "monthly" → rec ≠ "x_months" →
    occurs_in_month start rec mc ty tm = false
    ∧ (r.recurrence = rec →
        compute_monthly_income (l1 ++ r :: l2) ty tm
          = compute_monthly_income (l1 ++ l2) ty tm) := by
  intro h1 h2 h3
  refine ⟨occurs_in_month_unrecognized_eq start rec mc ty tm h1 h2 h3, ?_⟩
  intro hr
  have hzero : incomeContribution r ty tm = 0 := by
    unfold incomeContribution
    cases hs : r.start_date with
    | none => rfl
    | some sd =>
      have o := occurs_in_month_unrecognized_eq sd r.recurrence r.months_count ty tm
        (by rw [hr]; exact h1) (by rw [hr]; exact h2) (by rw [hr]; exact h3)
      simp [o]
  rw [compute_monthly_income_eq_sum, compute_monthly_income_eq_sum]
  simp [List.map_append, List.sum_append, hzero]

/-- Witness for C8: the policy weekly is rejected, and a weekly record
does not change a monthly income total. -/
theorem occurs_in_month_fail_closed_witness :
    occurs_in_month ⟨2024, 1, 1⟩ "weekly" (some 3) 2024 5 = false
    ∧ compute_monthly_income
        ([⟨100, some ⟨2024, 1, 1⟩, "monthly", none⟩] ++
          ⟨50, some ⟨2024, 1, 1⟩, "weekly", some 3⟩ :: [])
        2024 5
      = compute_monthly_income
        ([⟨100, some ⟨2024, 1, 1⟩, "monthly", none⟩] ++ []) 2024 5 := by
  have h := occurs_in_month_fail_closed ⟨2024, 1, 1⟩ "weekly" (some 3) 2024 5
    [⟨100, some ⟨2024, 1, 1⟩, "monthly", none⟩] []
    ⟨50, some ⟨2024, 1, 1⟩, "weekly", some 3⟩
    (by decide) (by decide) (by decide)
  exact ⟨h.1, h.2 rfl⟩

/-- C9: a record whose start date does not parse is silently excluded from
compute_monthly_income, which returns the sum of the contributions of the
remaining records; the computation is a total function, so no fault
propagates to the caller. -/
theorem compute_monthly_income_skips_unparseable (l1 l2 : List Income) (r : Income)
    (y m : Int) :
    r.start_date = none →
    compute_monthly_income (l1 ++ r :: l2) y m = compute_monthly_income (l1 ++ l2) y m
    ∧ compute_monthly_income (l1 ++ l2) y m
        = ((l1 ++ l2).map (fun s => incomeContribution s y m)).sum := by
  intro h
  have hzero : incomeContribution r y m = 0 := by
    simp [incomeContribution, h]
  constructor
  · rw [compute_monthly_income_eq_sum, compute_monthly_income_eq_sum]
    simp [List.map_append, List.sum_append, hzero]
  · exact compute_monthly_income_eq_sum _ y m

/-- Witness for C9: a record with an unparseable start date leaves a
monthly income total unchanged. -/
theorem compute_monthly_income_skips_unparseable_witness :
    compute_monthly_income
        ([⟨100, some ⟨2024, 1, 1⟩, "monthly", none⟩] ++
          ⟨77, none, "monthly", none⟩ :: [])
        2024 5
      = compute_monthly_income
        ([⟨100, some ⟨2024, 1, 1⟩, "monthly", none⟩] ++ []) 2024 5 :=
  (compute_monthly_income_skips_unparseable
    [⟨100, some ⟨2024, 1, 1⟩, "monthly", none⟩] [] ⟨77, none, "monthly", none⟩
    2024 5 rfl).1

lemma sum_filter_map_insert {α : Type} (p : α → Bool) (f : α → Rat)
    (l1 l2 : List α) (a : α) :
    (((l1 ++ a :: l2).filter p).map f).sum
      = (((l1 ++ l2).filter p).map f).sum + (if p a then f a else 0) := by
  rw [List.filter_append, List.filter_append, List.filter_cons]
  by_cases h : p a
  · simp [h, List.map_append, List.sum_append]
    ring
  · simp [h, List.map_append, List.sum_append]

/-- C6: compute_monthly_expenses is the sum of the amounts of the expenses
due in the exact (year, month) plus the sum of the amounts due of the
invoices whose stored month string equals the canonical zero-padded
YYYY-MM key; appending an invoice keyed to that month raises the total by
exactly its amount due, whatever the expenses are, and appending an
invoice keyed to any other month string leaves the total unchanged. -/
theorem compute_monthly_expenses_spec (exps : List Expense) (invs : List Invoice)
    (y m : Int) (inv : Invoice) :
    compute_monthly_expenses exps invs y m
        = ((exps.filter (fun e =>
              decide (e.due_date.year = y ∧ e.due_date.month = m))).map
            (fun e => e.amount)).sum
          + ((invs.filter (fun i =>
              decide (i.invoice_month = monthKeyStr y m))).map
            (fun i => i.amount_due)).sum
    ∧ (inv.invoice_month = monthKeyStr y m →
        compute_monthly_expenses exps (invs ++ [inv]) y m
          = compute_monthly_expenses exps invs y m + inv.amount_due)
    ∧ (inv.invoice_month ≠ monthKeyStr y m →
        compute_monthly_expenses exps (invs ++ [inv]) y m
          = compute_monthly_expenses exps invs y m) := by
  refine ⟨rfl, ?_, ?_⟩
  · intro h
    unfold compute_monthly_expenses
    rw [List.filter_append]
    simp [h]
    ring
  · intro h
    unfold compute_monthly_expenses
    rw [List.filter_append]
    simp [h]

/-- Witness for C6: an invoice stored under 2024-06 raises the June 2024
total by its amount due and leaves the July 2024 total unchanged. -/
theorem compute_monthly_expenses_spec_witness :
    compute_monthly_expenses []
        ([] ++ [⟨"B", none, "2024-06", 30, ⟨2024, 7, 5⟩, false⟩]) 2024 6
      = compute_monthly_expenses [] [] 2024 6 + 30
    ∧ compute_monthly_expenses []
        ([] ++ [⟨"B", none, "2024-06", 30, ⟨2024, 7, 5⟩, false⟩]) 2024 7
      = compute_monthly_expenses [] [] 2024 7 :=
  ⟨(compute_monthly_expenses_spec [] [] 2024 6
      ⟨"B", none, "2024-06", 30, ⟨2024, 7, 5⟩, false⟩).2.1 (by decide),
   (compute_monthly_expenses_spec [] [] 2024 7
      ⟨"B", none, "2024-06", 30, ⟨2024, 7, 5⟩, false⟩).2.2 (by decide)⟩

/-- C4: an adjustment dated on or before today, a date equal to today
included, contributes its signed amount to the past adjustment total and
leaves the future total unchanged; one dated strictly after today does the
opposite; strictly-after is the exact complement of on-or-before; and the
signed amount is plus the amount for the aporte kind and minus the amount
for the gasto kind. -/
theorem adjustment_partition_spec (today : Date) (a : SavingsAdjustment)
    (l1 l2 : List SavingsAdjustment) :
    (dateLe a.movement_date today = true →
        pastAdjTotal today (l1 ++ a :: l2)
            = pastAdjTotal today (l1 ++ l2) + adjEff a
        ∧ futureAdjTotal today (l1 ++ a :: l2) = futureAdjTotal today (l1 ++ l2))
    ∧ (a.movement_date = today → dateLe a.movement_date today = true)
    ∧ (dateLt today a.movement_date = true →
        futureAdjTotal today (l1 ++ a :: l2)
            = futureAdjTotal today (l1 ++ l2) + adjEff a
        ∧ pastAdjTotal today (l1 ++ a :: l2) = pastAdjTotal today (l1 ++ l2))
    ∧ dateLt today a.movement_date = !dateLe a.movement_date today
    ∧ (a.movement_type = "aporte" → adjEff a = a.amount)
    ∧ (a.movement_type = "gasto" → adjEff a = -a.amount) := by
  refine ⟨?_, ?_, ?_, dateLt_eq_not_dateLe today a.movement_date, ?_, ?_⟩
  · intro h
    have hlt : dateLt today a.movement_date = false := by
      rw [dateLt_eq_not_dateLe, h]
      rfl
    constructor
    · unfold pastAdjTotal
      rw [sum_filter_map_insert]
      simp [h]
    · unfold futureAdjTotal
      rw [sum_filter_map_insert]
      simp [hlt]
  · intro h
    rw [h, dateLe_iff]
    omega
  · intro h
    have hle : dateLe a.movement_date today = false := by
      have := dateLt_eq_not_dateLe today a.movement_date
      rw [h] at this
      cases hc : dateLe a.movement_date today
      · rfl
      · rw [hc] at this
        exact absurd this.symm (by decide)
    constructor
    · unfold futureAdjTotal
      rw [sum_filter_map_insert]
      simp [h]
    · unfold pastAdjTotal
      rw [sum_filter_map_insert]
      simp [hle]
  · intro h
    unfold adjEff adjSign
    rw [if_pos h]
    ring
  · intro h
    unfold adjEff adjSign
    rw [if_neg (by rw [h]; decide)]
    ring

/-- Witness for C4: a gasto adjustment dated exactly today enters the past
total with sign minus and leaves the future total unchanged. -/
theorem adjustment_partition_spec_witness :
    (pastAdjTotal ⟨2024, 6, 15⟩ ([] ++ ⟨10, ⟨2024, 6, 15⟩, "gasto"⟩ :: [])
        = pastAdjTotal ⟨2024, 6, 15⟩ ([] ++ [])
          + adjEff ⟨10, ⟨2024, 6, 15⟩, "gasto"⟩
      ∧ futureAdjTotal ⟨2024, 6, 15⟩ ([] ++ ⟨10, ⟨2024, 6, 15⟩, "gasto"⟩ :: [])
        = futureAdjTotal ⟨2024, 6, 15⟩ ([] ++ []))
    ∧ adjEff ⟨10, ⟨2024, 6, 15⟩, "gasto"⟩ = -(10 : Rat) :=
  ⟨(adjustment_partition_spec ⟨2024, 6, 15⟩ ⟨10, ⟨2024, 6, 15⟩, "gasto"⟩ [] []).1
      (by decide),
   (adjustment_partition_spec ⟨2024, 6, 15⟩ ⟨10, ⟨2024, 6, 15⟩, "gasto"⟩ [] []).2.2.2.2.2
      rfl⟩

/-- C10: any adjustment whose movement kind is not exactly aporte, an
unrecognized kind string included, gets sign minus one and subtracts its
amount from whichever of the two adjustment totals its date selects; it is
never dropped. -/
theorem adjustment_nonaporte_subtracts (a : SavingsAdjustment) (today : Date)
    (l1 l2 : List SavingsAdjustment) :
    a.movement_type ≠ "aporte" →
    adjSign a = -1 ∧ adjEff a = -a.amount
    ∧ (dateLe a.movement_date today = true →
        pastAdjTotal today (l1 ++ a :: l2)
          = pastAdjTotal today (l1 ++ l2) - a.amount)
    ∧ (dateLt today a.movement_date = true →
        futureAdjTotal today (l1 ++ a :: l2)
          = futureAdjTotal today (l1 ++ l2) - a.amount) := by
  intro h
  have hs : adjSign a = -1 := by
    unfold adjSign
    rw [if_neg h]
  have he : adjEff a = -a.amount := by
    unfold adjEff
    rw [hs]
    ring
  refine ⟨hs, he, ?_, ?_⟩
  · intro hd
    unfold pastAdjTotal
    rw [sum_filter_map_insert]
    simp [hd, he, sub_eq_add_neg]
  · intro hd
    unfold futureAdjTotal
    rw [sum_filter_map_insert]
    simp [hd, he, sub_eq_add_neg]

/-- Witness for C10: an adjustment with the unrecognized kind bogus gets
sign minus one and subtracts its amount from the past total. -/
theorem adjustment_nonaporte_subtracts_witness :
    adjSign ⟨7, ⟨2024, 1, 1⟩, "bogus"⟩ = -1
    ∧ pastAdjTotal ⟨2024, 6, 15⟩ ([] ++ ⟨7, ⟨2024, 1, 1⟩, "bogus"⟩ :: [])
        = pastAdjTotal ⟨2024, 6, 15⟩ ([] ++ []) - 7 := by
  have h := adjustment_nonaporte_subtracts ⟨7, ⟨2024, 1, 1⟩, "bogus"⟩ ⟨2024, 6, 15⟩
    [] [] (by decide)
  exact ⟨h.1, h.2.2.1 (by decide)⟩

/-- C5: get_due_alerts is a permutation of the expense alerts followed by
the invoice alerts for the unpaid records due between today and today plus
days_ahead days, both ends inclusive; it is sorted ascending by due date;
every unpaid in-window expense or invoice appears; every entry of the
output comes from some unpaid in-window expense or invoice, so a paid
record never produces an entry; and when nothing matches the result is the
empty list, not an error. -/
theorem get_due_alerts_spec (today : Date) (days_ahead : Nat)
    (exps : List Expense) (invs : List Invoice) :
    (get_due_alerts today days_ahead exps invs).Perm
        (dueExpenseAlerts today (addDays today days_ahead) exps
          ++ dueInvoiceAlerts today (addDays today days_ahead) invs)
    ∧ (get_due_alerts today days_ahead exps invs).Sorted alertLe
    ∧ (∀ e ∈ exps, e.is_paid = false →
        inWindow today (addDays today days_ahead) e.due_date = true →
        mkExpenseAlert e ∈ get_due_alerts today days_ahead exps invs)
    ∧ (∀ i ∈ invs, i.is_paid = false →
        inWindow today (addDays today days_ahead) i.due_date = true →
        mkInvoiceAlert i ∈ get_due_alerts today days_ahead exps invs)
    ∧ (∀ a ∈ get_due_alerts today days_ahead exps invs,
        (∃ e, e ∈ exps ∧ e.is_paid = false
          ∧ inWindow today (addDays today days_ahead) e.due_date = true
          ∧ a = mkExpenseAlert e)
        ∨ (∃ i, i ∈ invs ∧ i.is_paid = false
          ∧ inWindow today (addDays today days_ahead) i.due_date = true
          ∧ a = mkInvoiceAlert i))
    ∧ ((∀ e ∈ exps, e.is_paid = true
          ∨ inWindow today (addDays today days_ahead) e.due_date = false) →
       (∀ i ∈ invs, i.is_paid = true
          ∨ inWindow today (addDays today days_ahead) i.due_date = false) →
        get_due_alerts today days_ahead exps invs = []) := by
  have hdef : get_due_alerts today days_ahead exps invs
      = List.insertionSort alertLe
          (dueExpenseAlerts today (addDays today days_ahead) exps
            ++ dueInvoiceAlerts today (addDays today days_ahead) invs) := rfl
  refine ⟨?_, ?_, ?_, ?_, ?_, ?_⟩
  · rw [hdef]
    exact List.perm_insertionSort alertLe _
  · rw [hdef]
    exact List.sorted_insertionSort alertLe _
  · intro e he hp hw
    rw [hdef, List.mem_insertionSort]
    refine List.mem_append_left _ ?_
    unfold dueExpenseAlerts
    exact List.mem_map_of_mem mkExpenseAlert
      (List.mem_filter.mpr ⟨List.mem_filter.mpr ⟨he, by simp [hp]⟩, hw⟩)
  · intro i hi hp hw
    rw [hdef, List.mem_insertionSort]
    refine List.mem_append_right _ ?_
    unfold dueInvoiceAlerts
    exact List.mem_map_of_mem mkInvoiceAlert
      (List.mem_filter.mpr ⟨List.mem_filter.mpr ⟨hi, by simp [hp]⟩, hw⟩)
  · intro a ha
    rw [hdef, List.mem_insertionSort] at ha
    rcases List.mem_append.mp ha with h | h
    · left
      unfold dueExpenseAlerts at h
      rcases List.mem_map.mp h with ⟨e, he, heq⟩
      rcases List.mem_filter.mp he with ⟨he1, hc2⟩
      rcases List.mem_filter.mp he1 with ⟨he0, hc1⟩
      exact ⟨e, he0, by simpa using hc1, hc2, heq.symm⟩
    · right
      unfold dueInvoiceAlerts at h
      rcases List.mem_map.mp h with ⟨i, hi, heq⟩
      rcases List.mem_filter.mp hi with ⟨hi1, hc2⟩
      rcases List.mem_filter.mp hi1 with ⟨hi0, hc1⟩
      exact ⟨i, hi0, by simpa using hc1, hc2, heq.symm⟩
  · intro hE hI
    have h1 : dueExpenseAlerts today (addDays today days_ahead) exps = [] := by
      unfold dueExpenseAlerts
      rw [List.map_eq_nil_iff, List.filter_eq_nil_iff]
      intro e he
      rcases List.mem_filter.mp he with ⟨he0, hc1⟩
      rcases hE e he0 with hpaid | hwin
      · simp [hpaid] at hc1
      · simp [hwin]
    have h2 : dueInvoiceAlerts today (addDays today days_ahead) invs = [] := by
      unfold dueInvoiceAlerts
      rw [List.map_eq_nil_iff, List.filter_eq_nil_iff]
      intro i hi
      rcases List.mem_filter.mp hi with ⟨hi0, hc1⟩
      rcases hI i hi0 with hpaid | hwin
      · simp [hpaid] at hc1
      · simp [hwin]
    rw [hdef, h1, h2]
    rfl

/-- Witness for C5, the worked example of the spec: an unpaid expense due
June 20 2024 appears in the alerts of June 18 2024 with a five-day
lookahead. -/
theorem get_due_alerts_spec_witness :
    mkExpenseAlert ⟨"a", "c", 10, ⟨2024, 6, 20⟩, false⟩
      ∈ get_due_alerts ⟨2024, 6, 18⟩ 5 [⟨"a", "c", 10, ⟨2024, 6, 20⟩, false⟩] [] :=
  (get_due_alerts_spec ⟨2024, 6, 18⟩ 5 [⟨"a", "c", 10, ⟨2024, 6, 20⟩, false⟩] []).2.2.1
    ⟨"a", "c", 10, ⟨2024, 6, 20⟩, false⟩ (by simp) rfl (by decide)

lemma sum_map_filter_grid (g : List (Int × Int)) (f : Int → Int → Rat)
    (p : Int → Int → Bool) :
    (((g.map (fun q => (q.1, q.2, f q.1 q.2))).filter
        (fun r => p r.1 r.2.1)).map (fun r => r.2.2)).sum
      = ((g.filter (fun q => p q.1 q.2)).map (fun q => f q.1 q.2)).sum := by
  induction g with
  | nil => rfl
  | cons q t ih =>
    simp only [List.map_cons, List.filter_cons]
    by_cases h : p q.1 q.2 <;> simp [h, ih]

/-- C1: the balance projector classifies a month as past exactly when its
year is below the current year or its year is the current year and its
month is strictly below the current month; the current month itself is
future and not past; the future test is the exact complement of the past
test, so every window month falls in exactly one partition; saldo_atual is
the sum of the nets of the past window months plus the past adjustment
total; saldo_futuro is saldo_atual plus the sum of the nets of the future
window months plus the future adjustment total. -/
theorem compute_accumulated_balances_spec (today : Date) (mp mf : Nat)
    (incs : List Income) (exps : List Expense) (invs : List Invoice)
    (adjs : List SavingsAdjustment) :
    (∀ y m, isPastMonth today y m = true
        ↔ (y < today.year ∨ (y = today.year ∧ m < today.month)))
    ∧ isPastMonth today today.year today.month = false
    ∧ isFutureMonth today today.year today.month = true
    ∧ (∀ y m, isFutureMonth today y m = !isPastMonth today y m)
    ∧ (compute_accumulated_balances today mp mf incs exps invs adjs).1
        = (((monthsGrid today mp mf).filter
              (fun q => isPastMonth today q.1 q.2)).map
            (fun q => monthly_net incs exps invs q.1 q.2)).sum
          + pastAdjTotal today adjs
    ∧ (compute_accumulated_balances today mp mf incs exps invs adjs).2
        = (compute_accumulated_balances today mp mf incs exps invs adjs).1
          + (((monthsGrid today mp mf).filter
                (fun q => isFutureMonth today q.1 q.2)).map
              (fun q => monthly_net incs exps invs q.1 q.2)).sum
          + futureAdjTotal today adjs := by
  refine ⟨?_, ?_, ?_, ?_, ?_, ?_⟩
  · intro y m
    simp [isPastMonth]
  · simp [isPastMonth]
  · simp [isFutureMonth]
  · intro y m
    simp only [isFutureMonth, isPastMonth, ← decide_not, decide_eq_decide]
    omega
  · simp only [compute_accumulated_balances]
    rw [sum_map_filter_grid]
  · simp only [compute_accumulated_balances]
    rw [sum_map_filter_grid, sum_map_filter_grid]
